import Mathlib

/-!
Verification of the subtitle/lyrics pipeline and the download-progress
classifier of `simple.py`, via a shallow embedding in Lean 4.

The embedding translates the Python source functions:
* `convert_srt_timestamp`  (SRT timestamp to LRC form),
* the `add_offset` closure of `fix_TED_lyrics_before_embedding_in_mp3`
  (carrying addition of a 3585 ms offset),
* the regex transforms of `fix_TED_lyrics_before_embedding_in_mp3`
  (first-block repair with `count=1`, then a global offset rewrite),
* the transcript builder of `embed_lyrics_in_mp3`,
* the line classifier loop of `process_single_video`.

Python strings are modelled as Lean `String`/`List Char`; the regexes
appearing in the source are fixed patterns and are implemented directly
as scanners with Python's leftmost, greedy/lazy backtracking semantics.
-/

namespace Simple

/-- Numeric value of a decimal digit character. -/
def digitVal (c : Char) : Nat := c.toNat - 48

/-- The character for a decimal digit (`d` is taken mod nothing; callers pass `d < 10`). -/
def digitChar (d : Nat) : Char := Char.ofNat (48 + d)

/-- Python `f"{n:02d}"`: decimal rendering, zero-padded to width at least 2. -/
def pad2 (n : Nat) : String := if n < 10 then "0" ++ toString n else toString n

/-- Python `f"{n:03d}"`: decimal rendering, zero-padded to width at least 3. -/
def pad3 (n : Nat) : String :=
  if n < 10 then "00" ++ toString n
  else if n < 100 then "0" ++ toString n
  else toString n

/-- The anchored-at-start match of the regex `(\d{2}):(\d{2}):(\d{2}),(\d{3})`
used by `convert_srt_timestamp` via `re.match`: it inspects only the first
twelve characters and ignores anything that follows (no end anchor).
Returns the numeric groups `(h, m, s, ms)`.
-/
def parseSrtStart (cs : List Char) : Option (Nat × Nat × Nat × Nat) :=
  match cs with
  | c1 :: c2 :: k1 :: c3 :: c4 :: k2 :: c5 :: c6 :: k3 :: c7 :: c8 :: c9 :: _ =>
    if c1.isDigit && c2.isDigit && k1 == ':' && c3.isDigit && c4.isDigit && k2 == ':'
        && c5.isDigit && c6.isDigit && k3 == ',' && c7.isDigit && c8.isDigit && c9.isDigit then
      some (10 * digitVal c1 + digitVal c2,
            10 * digitVal c3 + digitVal c4,
            10 * digitVal c5 + digitVal c6,
            100 * digitVal c7 + 10 * digitVal c8 + digitVal c9)
    else none
  | _ => none

/-- Translation of `convert_srt_timestamp` from the source: match the SRT shape at the start of
the string and render `f"[{h*60+m:02d}:{s:02d}.{ms//10:02d}]"`, `None` on
match failure.
-/
def convert_srt_timestamp (s : String) : Option String :=
  match parseSrtStart s.data with
  | none => none
  | some (h, m, sec, ms) =>
    some ("[" ++ pad2 (h * 60 + m) ++ ":" ++ pad2 sec ++ "." ++ pad2 (ms / 10) ++ "]")

/-- Build the 12-character SRT timestamp string `HH:MM:SS,mmm` from its digits. -/
def mkSrt (h1 h2 m1 m2 s1 s2 x1 x2 x3 : Nat) : String :=
  ⟨[digitChar h1, digitChar h2, ':', digitChar m1, digitChar m2, ':',
    digitChar s1, digitChar s2, ',', digitChar x1, digitChar x2, digitChar x3]⟩

/-- Character at position `i` is a decimal digit. -/
def isDigitAt (cs : List Char) (i : Nat) : Bool :=
  (cs.get? i).any Char.isDigit

/-- Character at position `i` is exactly `c`. -/
def isCharAt (cs : List Char) (i : Nat) (c : Char) : Bool :=
  (cs.get? i).any (· == c)

/-- The string begins with the shape `DD:DD:DD,DDD` (two digits, colon, two
digits, colon, two digits, comma, three digits); characters beyond position
11 are unconstrained.
-/
def srtShapeAt (cs : List Char) : Bool :=
  isDigitAt cs 0 && isDigitAt cs 1 && isCharAt cs 2 ':'
    && isDigitAt cs 3 && isDigitAt cs 4 && isCharAt cs 5 ':'
    && isDigitAt cs 6 && isDigitAt cs 7 && isCharAt cs 8 ','
    && isDigitAt cs 9 && isDigitAt cs 10 && isDigitAt cs 11

lemma digitChar_isDigit {d : Nat} (hd : d < 10) : (digitChar d).isDigit = true := by
  interval_cases d <;> decide

lemma digitVal_digitChar {d : Nat} (hd : d < 10) : digitVal (digitChar d) = d := by
  interval_cases d <;> decide

end Simple

namespace Simple

/-- Claim C1: on every 12-digit-shaped SRT timestamp `HH:MM:SS,mmm`, the converter
returns `[MM:SS.CC]` with minute field `h*60+m` zero-padded to at least two
digits, the input seconds, and centiseconds `mmm / 10` by truncation. -/
theorem convert_srt_timestamp_valid_shape
    (h1 h2 m1 m2 s1 s2 x1 x2 x3 : Nat)
    (hh1 : h1 < 10) (hh2 : h2 < 10) (hm1 : m1 < 10) (hm2 : m2 < 10)
    (hs1 : s1 < 10) (hs2 : s2 < 10) (hx1 : x1 < 10) (hx2 : x2 < 10) (hx3 : x3 < 10) :
    convert_srt_timestamp (mkSrt h1 h2 m1 m2 s1 s2 x1 x2 x3) =
      some ("[" ++ pad2 ((10 * h1 + h2) * 60 + (10 * m1 + m2)) ++ ":"
        ++ pad2 (10 * s1 + s2) ++ "." ++ pad2 ((100 * x1 + 10 * x2 + x3) / 10) ++ "]") := by
  simp [convert_srt_timestamp, mkSrt, parseSrtStart,
    digitChar_isDigit, digitVal_digitChar, hh1, hh2, hm1, hm2, hs1, hs2, hx1, hx2, hx3]

/-- Witness for `C1` at the spec's example: `"00:01:02,399"` maps to `"[01:02.39]"`. -/
theorem convert_srt_timestamp_valid_shape_witness :
    convert_srt_timestamp "00:01:02,399" = some "[01:02.39]" := by
  have h := convert_srt_timestamp_valid_shape 0 0 0 1 0 2 3 9 9
    (by decide) (by decide) (by decide) (by decide) (by decide)
    (by decide) (by decide) (by decide) (by decide)
  have e : mkSrt 0 0 0 1 0 2 3 9 9 = "00:01:02,399" := by decide
  rw [e] at h
  rw [h]
  decide

lemma isSome_boolIf {α : Type} (b : Bool) (x : α) :
    (if b then some x else none).isSome = b := by
  cases b <;> simp

lemma parseSrtStart_isSome (cs : List Char) :
    (parseSrtStart cs).isSome = srtShapeAt cs := by
  rcases cs with _ | ⟨c1, _ | ⟨c2, _ | ⟨k1, _ | ⟨c3, _ | ⟨c4, _ | ⟨k2, _ | ⟨c5, _ |
    ⟨c6, _ | ⟨k3, _ | ⟨c7, _ | ⟨c8, _ | ⟨c9, rest⟩⟩⟩⟩⟩⟩⟩⟩⟩⟩⟩⟩ <;>
    simp [parseSrtStart, srtShapeAt, isDigitAt, isCharAt, isSome_boolIf, List.get?]
  split_ifs with hc <;> simp_all [Bool.and_eq_true, beq_iff_eq]

/-- Claim C8 counterexample: the source uses `re.match` with no end anchor, so a
string that merely begins with a valid timestamp but carries trailing
characters still parses, contradicting the strict-shape claim. -/
theorem convert_srt_timestamp_trailing_accepted :
    convert_srt_timestamp "00:01:02,399xx" = some "[01:02.39]" := by decide

/-- Claim C8 amended: parsing fails exactly on the strings that do not BEGIN with
the shape `DD:DD:DD,DDD`; the first twelve characters alone decide the
outcome and anything after them is ignored. -/
theorem convert_srt_timestamp_none_iff (s : String) :
    convert_srt_timestamp s = none ↔ srtShapeAt s.data = false := by
  have h := parseSrtStart_isSome s.data
  unfold convert_srt_timestamp
  cases hp : parseSrtStart s.data with
  | none =>
    rw [hp] at h
    simp at h
    simp [← h]
  | some v =>
    rw [hp] at h
    simp at h
    obtain ⟨a, b, c, d⟩ := v
    simp [h]

/-- Witness for `C8`'s amended theorem at a concrete non-matching input. -/
theorem convert_srt_timestamp_none_iff_witness :
    convert_srt_timestamp "0:01:02,399" = none ↔ srtShapeAt "0:01:02,399".data = false :=
  convert_srt_timestamp_none_iff "0:01:02,399"

/-- The carrying addition performed by the `add_offset` closure of
`fix_TED_lyrics_before_embedding_in_mp3` on one parsed timestamp:
`ms += 3585`, then carry ms into s (base 1000), s into m (base 60),
m into h (base 60). Returns `(h, m, s, ms)` after carrying.
-/
def addOffsetComponents (h m s ms : Nat) : Nat × Nat × Nat × Nat :=
  let ms1 := ms + 3585
  let s1 := s + ms1 / 1000
  let ms2 := ms1 % 1000
  let m1 := m + s1 / 60
  let s2 := s1 % 60
  let h1 := h + m1 / 60
  let m2 := m1 % 60
  (h1, m2, s2, ms2)

/-- The rendering `f"{h:02d}:{m:02d}:{s:02d},{ms:03d}"` used by `add_offset`. -/
def renderSrtTime : Nat × Nat × Nat × Nat → String
  | (h, m, s, ms) => pad2 h ++ ":" ++ pad2 m ++ ":" ++ pad2 s ++ "," ++ pad3 ms

lemma pad2_length {n : Nat} (h : n < 100) : (pad2 n).length = 2 := by
  interval_cases n <;> decide

set_option maxHeartbeats 1000000 in
lemma pad3_length {n : Nat} (h : n < 1000) : (pad3 n).length = 3 := by
  interval_cases n <;> decide

lemma addOffsetComponents_eq (h m s ms : Nat) :
    addOffsetComponents h m s ms =
      (h + (m + (s + (ms + 3585) / 1000) / 60) / 60,
       (m + (s + (ms + 3585) / 1000) / 60) % 60,
       (s + (ms + 3585) / 1000) % 60,
       (ms + 3585) % 1000) := rfl

/-- Claim C2: the 3585 ms offset carries ms into s (base 1000), s into m and m
into h (base 60); `"00:59:59,900"` becomes exactly `"01:00:03,485"`; on every
input the resulting ms, s and m fields are below 1000 / 60 / 60, and the
rendering zero-pads the fields (`:02d` / `:03d`), giving the in-range fields
their fixed widths 2, 2 and 3. -/
theorem add_offset_carries :
    renderSrtTime (addOffsetComponents 0 59 59 900) = "01:00:03,485"
    ∧ (∀ h m s ms,
        (addOffsetComponents h m s ms).2.2.2 < 1000
        ∧ (addOffsetComponents h m s ms).2.2.1 < 60
        ∧ (addOffsetComponents h m s ms).2.1 < 60)
    ∧ (∀ h m s ms,
        renderSrtTime (addOffsetComponents h m s ms) =
          pad2 (addOffsetComponents h m s ms).1 ++ ":"
            ++ pad2 (addOffsetComponents h m s ms).2.1 ++ ":"
            ++ pad2 (addOffsetComponents h m s ms).2.2.1 ++ ","
            ++ pad3 (addOffsetComponents h m s ms).2.2.2
        ∧ (pad2 (addOffsetComponents h m s ms).2.1).length = 2
        ∧ (pad2 (addOffsetComponents h m s ms).2.2.1).length = 2
        ∧ (pad3 (addOffsetComponents h m s ms).2.2.2).length = 3) := by
  refine ⟨by decide, ?_, ?_⟩
  · intro h m s ms
    rw [addOffsetComponents_eq]
    refine ⟨?_, ?_, ?_⟩ <;> simp <;> omega
  · intro h m s ms
    have hb := addOffsetComponents_eq h m s ms
    refine ⟨rfl, ?_, ?_, ?_⟩
    · exact pad2_length (by rw [hb]; simp; omega)
    · exact pad2_length (by rw [hb]; simp; omega)
    · exact pad3_length (by rw [hb]; simp; omega)

/-! ### The document rewrites of `fix_TED_lyrics_before_embedding_in_mp3`

The function applies two `re.sub` rewrites to the document text, in memory,
before the single write-back:
1. the malformed-first-block repair, with `count=1` (first match only), and
2. the +3585 ms offset on every `HH:MM:SS,mmm --> HH:MM:SS,mmm` pair.
Both patterns are fixed, so they are embedded as direct scanners with
Python's leftmost / greedy / lazy backtracking behaviour. -/

/-- Python's `\s` on the ASCII range. -/
def isPySpace (c : Char) : Bool :=
  c == ' ' || c == '\t' || c == '\n' || c == '\r' || c == Char.ofNat 11 || c == Char.ofNat 12

/-- Strip an expected literal from the front, returning the remainder. -/
def dropLit : List Char → List Char → Option (List Char)
  | [], cs => some cs
  | _ :: _, [] => none
  | p :: ps, c :: cs => if c == p then dropLit ps cs else none

/-- Match `(\d{2}:\d{2}:\d{2})\.(\d{3})` at the front; returns the two
captured groups and the remainder. -/
def parseTsDot : List Char → Option (List Char × List Char × List Char)
  | a1 :: a2 :: ':' :: a3 :: a4 :: ':' :: a5 :: a6 :: '.' :: b1 :: b2 :: b3 :: rest =>
    if [a1, a2, a3, a4, a5, a6, b1, b2, b3].all Char.isDigit then
      some ([a1, a2, ':', a3, a4, ':', a5, a6], [b1, b2, b3], rest)
    else none
  | _ => none

/-- Match `\d{2}:\d{2}:\d{2},` at the front (the tail of the lookahead). -/
def tsCommaShape : List Char → Bool
  | a1 :: a2 :: ':' :: a3 :: a4 :: ':' :: a5 :: a6 :: ',' :: _ =>
    [a1, a2, a3, a4, a5, a6].all Char.isDigit
  | _ => false

/-- The lookahead `(?=\d+\n\d{2}:\d{2}:\d{2},)`: a nonempty digit run, then a
newline, then a comma timestamp.  `\d+` followed by `\n` can only take the
full digit run, so the test is deterministic. -/
def lookaheadOk (cs : List Char) : Bool :=
  let d := (cs.takeWhile Char.isDigit).length
  decide (1 ≤ d) && (cs.get? d == some '\n') && tsCommaShape (cs.drop (d + 1))

/-- The lazy tail `(.*?)\n(?=...)` under `re.DOTALL`: take the fewest
characters (newlines included) such that a `\n` with a satisfied lookahead
follows; returns the captured group and the remainder (lookahead unconsumed). -/
def step4 : List Char → Option (List Char × List Char)
  | [] => none
  | c :: rest =>
    if c == '\n' && lookaheadOk rest then some ([], rest)
    else (step4 rest).map (fun p => (c :: p.1, p.2))

/-- The part of the degenerate-block pattern after `\s*\n`: the dotted dual
timestamp `(\d{2}:\d{2}:\d{2})\.(\d{3}) -- (\d{2}:\d{2}:\d{2})\.(\d{3})`, a
newline and the lazy text tail.  Returns the five captured groups and the
remainder. -/
def step3 (cs : List Char) :
    Option (List Char × List Char × List Char × List Char × List Char × List Char) :=
  match parseTsDot cs with
  | none => none
  | some (g1, g2, r1) =>
    match dropLit " -- ".data r1 with
    | none => none
    | some r2 =>
      match parseTsDot r2 with
      | none => none
      | some (g3, g4, r3) =>
        match r3 with
        | '\n' :: r4 =>
          match step4 r4 with
          | none => none
          | some (g5, rest) => some (g1, g2, g3, g4, g5, rest)
        | _ => none

/-- The literal head of the degenerate pattern:
`1\n00:00:00,000 --> 00:00:00,001\n`. -/
def degenLit : List Char := "1\n00:00:00,000 --> 00:00:00,001\n".data

/-- Attempt the full degenerate-first-block pattern at the current position.
`\s*\n` is greedy with backtracking: the candidate lengths of `\s*` are tried
longest first within the maximal whitespace run.  On success, returns the
substituted text `1\n\1,\2 --> \3,\4\n\5\n` and the unconsumed remainder. -/
def matchDegenAt (cs : List Char) : Option (List Char × List Char) :=
  match dropLit degenLit cs with
  | none => none
  | some r1 =>
    let w := (r1.takeWhile isPySpace).length
    ((List.range (w + 1)).reverse).findSome? (fun k =>
      if r1.get? k == some '\n' then
        match step3 (r1.drop (k + 1)) with
        | none => none
        | some (g1, g2, g3, g4, g5, rest) =>
          some ("1\n".data ++ g1 ++ [','] ++ g2 ++ " --> ".data ++ g3 ++ [','] ++ g4
                ++ ['\n'] ++ g5 ++ ['\n'], rest)
      else none)

/-- Python `re.sub(pattern, replacement, content, count=1)`: scan positions left to
right; at the first position where the pattern matches, emit the replacement
and copy the remainder verbatim. -/
def repairScan : List Char → List Char
  | [] => []
  | c :: rest =>
    match matchDegenAt (c :: rest) with
    | some (rep, after) => rep ++ after
    | none => c :: repairScan rest

/-- The first rewrite of `fix_TED_lyrics_before_embedding_in_mp3`. -/
def repairFirst (s : String) : String := ⟨repairScan s.data⟩

/-- Match `\d{2}:\d{2}:\d{2},\d{3}` at the front, numerically. -/
def parseTsComma : List Char → Option ((Nat × Nat × Nat × Nat) × List Char)
  | a1 :: a2 :: ':' :: a3 :: a4 :: ':' :: a5 :: a6 :: ',' :: b1 :: b2 :: b3 :: rest =>
    if [a1, a2, a3, a4, a5, a6, b1, b2, b3].all Char.isDigit then
      some ((10 * digitVal a1 + digitVal a2,
             10 * digitVal a3 + digitVal a4,
             10 * digitVal a5 + digitVal a6,
             100 * digitVal b1 + 10 * digitVal b2 + digitVal b3), rest)
    else none
  | _ => none

/-- Match the offset pattern `(\d{2}:\d{2}:\d{2},\d{3}) --> (\d{2}:\d{2}:\d{2},\d{3})`. -/
def parsePairAt (cs : List Char) :
    Option ((Nat × Nat × Nat × Nat) × (Nat × Nat × Nat × Nat) × List Char) :=
  match parseTsComma cs with
  | none => none
  | some (t1, r1) =>
    match dropLit " --> ".data r1 with
    | none => none
    | some r2 =>
      match parseTsComma r2 with
      | none => none
      | some (t2, rest) => some (t1, t2, rest)

/-- Uncurried `addOffsetComponents` on a packed timestamp tuple. -/
def addOffsetTs : Nat × Nat × Nat × Nat → Nat × Nat × Nat × Nat
  | (h, m, s, ms) => addOffsetComponents h m s ms

/-- The global `re.sub` applying `add_offset` to every pair match, scanning
left to right over non-overlapping matches.  The fuel argument only bounds
the recursion; each step consumes at least one character, so passing the
input length makes the scan total. -/
def offsetScanGo : Nat → List Char → List Char
  | 0, cs => cs
  | _ + 1, [] => []
  | fuel + 1, c :: rest =>
    match parsePairAt (c :: rest) with
    | some (t1, t2, after) =>
      (renderSrtTime (addOffsetTs t1)).data ++ " --> ".data
        ++ (renderSrtTime (addOffsetTs t2)).data ++ offsetScanGo fuel after
    | none => c :: offsetScanGo fuel rest

/-- The second rewrite: every timestamp pair in the document gets +3585 ms. -/
def offsetAll (s : String) : String := ⟨offsetScanGo s.data.length s.data⟩

/-- The full in-memory transform of `fix_TED_lyrics_before_embedding_in_mp3`:
repair the first degenerate block (at most once), then offset every pair;
the result is written back in a single write. -/
def fix_TED_content (s : String) : String := offsetAll (repairFirst s)

/-- A degenerate leading block as described by the pattern. -/
def degenBlock : String :=
  "1\n00:00:00,000 --> 00:00:00,001\n\n00:00:01.000 -- 00:00:02.000\nHello\n"

/-- A well-formed follow-up block (also needed by the pattern's lookahead). -/
def followBlock : String := "2\n00:00:03,000 --> 00:00:04,000\nWorld\n"

/-- A second degenerate block, with different inner times. -/
def degenBlock2 : String :=
  "1\n00:00:00,000 --> 00:00:00,001\n\n00:00:05.000 -- 00:00:06.000\nBye\n"

/-- A well-formed block following the second degenerate block. -/
def followBlock2 : String := "3\n00:00:07,000 --> 00:00:08,000\nEnd\n"

set_option maxRecDepth 40000

/-- Claim C5 counterexample: the repair regex is not anchored to the start of the
document — in a document whose literal first block is the plain line `X`,
the degenerate shape occurring later is still rewritten, contradicting the
claim that the repair happens only when the shape is the document's literal
first block. -/
theorem repair_rewrites_non_leading_occurrence :
    repairFirst ("X\n" ++ degenBlock ++ followBlock) =
      "X\n1\n00:00:01,000 --> 00:00:02,000\nHello\n" ++ followBlock
    ∧ repairFirst ("X\n" ++ degenBlock ++ followBlock) ≠ "X\n" ++ degenBlock ++ followBlock := by
  constructor <;> decide

/-- Claim C5 amended: the repair rewrites at most one occurrence per document,
namely the first position at which the degenerate pattern matches — anywhere
in the document, not only as the literal first block — and everything after
the match, including a second occurrence of the degenerate shape, is left
byte-for-byte untouched. -/
theorem repair_at_most_once :
    (∀ c rest rep after, matchDegenAt (c :: rest) = some (rep, after) →
      repairScan (c :: rest) = rep ++ after)
    ∧ repairFirst (degenBlock ++ followBlock ++ "\n" ++ degenBlock2 ++ followBlock2) =
        "1\n00:00:01,000 --> 00:00:02,000\nHello\n" ++ followBlock ++ "\n"
          ++ degenBlock2 ++ followBlock2
    ∧ (matchDegenAt (degenBlock2 ++ followBlock2).data).isSome = true := by
  refine ⟨?_, by decide, by decide⟩
  intro c rest rep after hm
  simp [repairScan, hm]

/-- Claim C6: the transform of `fix_TED_lyrics_before_embedding_in_mp3` is the
single composite rewrite offset-after-repair — so consumers only ever see the
final text — and the +3585 ms offset hits every `-->` timestamp pair of the
repaired document, including the pair that the repair itself produced. -/
theorem fix_ted_repair_then_offset_all :
    (∀ s, fix_TED_content s = offsetAll (repairFirst s))
    ∧ fix_TED_content (degenBlock ++ followBlock) =
        "1\n00:00:04,585 --> 00:00:05,585\nHello\n2\n00:00:06,585 --> 00:00:07,585\nWorld\n" :=
  ⟨fun _ => rfl, by decide⟩

/-! ### The download-progress classifier of `process_single_video`

The loop reads lines from the external process.  A line containing both
`"[download]"` and `"Destination:"` resets the three phase flags and
classifies the new phase (TED runs by ordinal with a filename-extension
override, other runs by filename heuristics).  A line matching
`\[download\]\s+(\d+\.\d+)% of` emits a progress message whose phase icon is
chosen from the current flags. -/

inductive Phase
  | metadata
  | video
  | audio
  | generic
deriving DecidableEq

/-- The classifier state: the three phase flags, the destination counter and
the TED diagnostic sequence log (`download_sequence` in the source). -/
structure DLState where
  is_downloading_audio : Bool
  is_downloading_video : Bool
  is_downloading_metadata : Bool
  download_count : Nat
  download_sequence : List String
deriving DecidableEq

/-- Flags start false, the counter at zero, the log empty. -/
def initState : DLState := ⟨false, false, false, 0, []⟩

/-- One progress emission: the phase icon chosen and the captured percent. -/
structure ProgressEvent where
  phase : Phase
  percent : String
deriving DecidableEq

/-- Test that `needle` occurs as a contiguous run inside `hay` (Python `in`). -/
def containsSeq (needle : List Char) : List Char → Bool
  | [] => needle.isEmpty
  | c :: t => needle.isPrefixOf (c :: t) || containsSeq needle t

/-- Python `sub in s` on strings. -/
def strContains (s sub : String) : Bool := containsSeq sub.data s.data

/-- Python `s.lower()` (ASCII range). -/
def lowerStr (s : String) : String := ⟨s.data.map Char.toLower⟩

/-- Destination-announcement test: `"[download]" in output and "Destination:" in output`. -/
def isDest (line : String) : Bool :=
  strContains line "[download]" && strContains line "Destination:"

/-- TED-mode metadata extension test on the lowercased line. -/
def tedMetaExt (line : String) : Bool :=
  strContains (lowerStr line) ".vtt" || strContains (lowerStr line) ".srt"
    || strContains (lowerStr line) ".json" || strContains (lowerStr line) ".jpg"
    || strContains (lowerStr line) ".png"

/-- Non-TED metadata extension test on the lowercased line. -/
def otherMetaExt (line : String) : Bool :=
  [".srt", ".vtt", ".jpg", ".png", ".json", ".ytdl"].any
    (fun e => strContains (lowerStr line) e)

/-- Known audio container extensions, on the lowercased line. -/
def audioExtMatch (line : String) : Bool :=
  [".m4a", ".mp3", ".aac", ".opus", ".weba", ".ogg", ".wav", ".flac", ".ac3", ".mka"].any
    (fun e => strContains (lowerStr line) e)

/-- Python `".f" in output` plus a known audio-only format id, on the raw line. -/
def audioFormatId (line : String) : Bool :=
  strContains line ".f"
    && ["140", "249", "250", "251", "139", "171", "258"].any (fun fid => strContains line fid)

/-- Textual audio-stream indicators, on the lowercased line. -/
def audioIndicator (line : String) : Bool :=
  ["audio only", "audio_only", "audio stream", "audio track", "audio-only"].any
    (fun p => strContains (lowerStr line) p)

/-- Audio naming patterns, on the lowercased line. -/
def audioNamePattern (line : String) : Bool :=
  ["audio-high", "-audio-", "dash_audio", "audio_track", "audio-track", "audio_mp4",
   "audio-mp4", "mp4-audio", "audio_segment", "audio=", "audio_only=true"].any
    (fun p => strContains (lowerStr line) p)

/-- Phase classification at a destination-announcement line (`count` is the
already-incremented `download_count`). -/
def classifyDest (isTed audioOnly : Bool) (count : Nat) (line : String) : Phase :=
  if isTed && !audioOnly then
    if tedMetaExt line then .metadata
    else if count == 2 then .video
    else if count == 3 then .audio
    else .metadata
  else
    if otherMetaExt line then .metadata
    else if audioOnly then .audio
    else if audioExtMatch line then .audio
    else if audioFormatId line then .audio
    else if audioIndicator line then .audio
    else if audioNamePattern line then .audio
    else .video

/-- The label appended to `download_sequence` in TED mode. -/
def phaseName : Phase → String
  | .metadata => "metadata"
  | .video => "video"
  | .audio => "audio"
  | .generic => "generic"

/-- Attempt `\[download\]\s+(\d+\.\d+)% of` at the current position; `\s+` and
both `\d+` runs are greedy and, being followed by a non-member character, can
only take their maximal runs.  Returns the captured percent text. -/
def tryProgressAt (cs : List Char) : Option String :=
  match dropLit "[download]".data cs with
  | none => none
  | some r1 =>
    let w := (r1.takeWhile isPySpace).length
    if w == 0 then none
    else
      let r2 := r1.drop w
      let d1 := (r2.takeWhile Char.isDigit).length
      if d1 == 0 then none
      else
        match r2.drop d1 with
        | '.' :: r4 =>
          let d2 := (r4.takeWhile Char.isDigit).length
          if d2 == 0 then none
          else
            match dropLit "% of".data (r4.drop d2) with
            | none => none
            | some _ => some ⟨r2.take d1 ++ '.' :: r4.take d2⟩
        | _ => none

/-- Python `re.search` for the progress pattern: leftmost position wins. -/
def findProgress : List Char → Option String
  | [] => none
  | c :: rest =>
    match tryProgressAt (c :: rest) with
    | some p => some p
    | none => findProgress rest

/-- One iteration of the reader loop on one line: the destination branch
(resetting the flags and classifying), then the progress branch (emitting an
event from the freshly current flags).  Returns the new state and the emitted
event, if any. -/
def processLine (isTed audioOnly : Bool) (st : DLState) (line : String) :
    DLState × Option ProgressEvent :=
  let st' :=
    if isDest line then
      let count := st.download_count + 1
      let ph := classifyDest isTed audioOnly count line
      { is_downloading_audio := ph == Phase.audio,
        is_downloading_video := ph == Phase.video,
        is_downloading_metadata := ph == Phase.metadata,
        download_count := count,
        download_sequence :=
          st.download_sequence ++ (if isTed && !audioOnly then [phaseName ph] else []) }
    else st
  match findProgress line.data with
  | some pct =>
    (st', some ⟨(if st'.is_downloading_metadata then Phase.metadata
                 else if st'.is_downloading_video then Phase.video
                 else if st'.is_downloading_audio then Phase.audio
                 else Phase.generic), pct⟩)
  | none => (st', none)

/-- Run the classifier from a given state over a list of lines, collecting
the emitted events in order. -/
def runFrom (isTed audioOnly : Bool) (st : DLState) : List String → DLState × List ProgressEvent
  | [] => (st, [])
  | l :: ls =>
    let pr := processLine isTed audioOnly st l
    let rest := runFrom isTed audioOnly pr.1 ls
    (rest.1, pr.2.toList ++ rest.2)

/-- Run the classifier from the initial state. -/
def runLines (isTed audioOnly : Bool) (lines : List String) : DLState × List ProgressEvent :=
  runFrom isTed audioOnly initState lines

/-- Number of phase flags currently set. -/
def countTrue (st : DLState) : Nat :=
  (cond st.is_downloading_audio 1 0) + (cond st.is_downloading_video 1 0)
    + (cond st.is_downloading_metadata 1 0)

lemma processLine_not_dest (it ao : Bool) (st : DLState) (line : String)
    (h : isDest line = false) : (processLine it ao st line).1 = st := by
  unfold processLine
  simp only [h, Bool.false_eq_true, if_false]
  cases findProgress line.data <;> rfl

lemma processLine_event_phase (it ao : Bool) (st : DLState) (line : String)
    (h : isDest line = false) :
    ∀ ev, (processLine it ao st line).2 = some ev →
      ev.phase = (if st.is_downloading_metadata then Phase.metadata
                  else if st.is_downloading_video then Phase.video
                  else if st.is_downloading_audio then Phase.audio
                  else Phase.generic) := by
  intro ev
  unfold processLine
  simp only [h, Bool.false_eq_true, if_false]
  cases findProgress line.data with
  | none => intro hc; cases hc
  | some pct =>
    intro hc
    cases hc' : ev
    simp_all

lemma processLine_countTrue (it ao : Bool) (st : DLState) (line : String)
    (h : countTrue st ≤ 1) : countTrue (processLine it ao st line).1 ≤ 1 := by
  by_cases hd : isDest line
  · unfold processLine
    simp only [hd, if_true]
    cases classifyDest it ao (st.download_count + 1) line <;>
      cases findProgress line.data <;> simp [countTrue] <;> decide
  · rw [processLine_not_dest it ao st line (by simpa using hd)]
    exact h

lemma runFrom_countTrue (it ao : Bool) (lines : List String) :
    ∀ st : DLState, countTrue st ≤ 1 → countTrue (runFrom it ao st lines).1 ≤ 1 := by
  induction lines with
  | nil => intro st h; simpa [runFrom] using h
  | cons l ls ih =>
    intro st h
    simp only [runFrom]
    exact ih _ (processLine_countTrue it ao st l h)

lemma runFrom_append (it ao : Bool) (pre suf : List String) :
    ∀ st : DLState,
      runFrom it ao st (pre ++ suf) =
        ((runFrom it ao (runFrom it ao st pre).1 suf).1,
         (runFrom it ao st pre).2 ++ (runFrom it ao (runFrom it ao st pre).1 suf).2) := by
  induction pre with
  | nil => intro st; simp [runFrom]
  | cons l ls ih => intro st; simp [runFrom, ih, List.append_assoc]

lemma runFrom_no_dest (it ao : Bool) (lines : List String)
    (h : ∀ l ∈ lines, isDest l = false) :
    ∀ st : DLState,
      (runFrom it ao st lines).1 = st ∧
      (st.is_downloading_audio = false → st.is_downloading_video = false →
        st.is_downloading_metadata = false →
        ∀ ev ∈ (runFrom it ao st lines).2, ev.phase = Phase.generic) := by
  induction lines with
  | nil => intro st; simp [runFrom]
  | cons l ls ih =>
    intro st
    have hl : isDest l = false := h l (by simp)
    have hrest := ih (fun x hx => h x (by simp [hx])) st
    have hst : (processLine it ao st l).1 = st := processLine_not_dest it ao st l hl
    constructor
    · simp only [runFrom, hst]
      exact hrest.1
    · intro ha hv hm ev hev
      simp only [runFrom, hst] at hev
      have hev' : (processLine it ao st l).2 = some ev ∨ ev ∈ (runFrom it ao st ls).2 := by
        simpa using hev
      rcases hev' with hev1 | hev2
      · have := processLine_event_phase it ao st l hl ev hev1
        simpa [ha, hv, hm] using this
      · exact hrest.2 ha hv hm ev hev2

/-- The label the TED branch actually records for the announcement with
(1-based) ordinal `count`: the filename-extension override first, the
ordinal positions 2 and 3 after it, metadata for every other position. -/
def expectedTed (count : Nat) (line : String) : String :=
  if tedMetaExt line then "metadata"
  else if count == 2 then "video"
  else if count == 3 then "audio"
  else "metadata"

/-- The labels recorded for a run of announcements, `count` already taken. -/
def expectedTedSeq (count : Nat) : List String → List String
  | [] => []
  | l :: ls => expectedTed (count + 1) l :: expectedTedSeq (count + 1) ls

lemma phaseName_classifyDest_ted (c : Nat) (line : String) :
    phaseName (classifyDest true false c line) = expectedTed c line := by
  simp only [classifyDest, expectedTed, Bool.not_false, Bool.and_true, if_true]
  split_ifs <;> rfl

lemma runFrom_ted_dest (lines : List String) (h : ∀ l ∈ lines, isDest l = true) :
    ∀ st : DLState,
      ((runFrom true false st lines).1).download_sequence =
        st.download_sequence ++ expectedTedSeq st.download_count lines
      ∧ ((runFrom true false st lines).1).download_count =
        st.download_count + lines.length := by
  induction lines with
  | nil => intro st; simp [runFrom, expectedTedSeq]
  | cons l ls ih =>
    intro st
    have hl : isDest l = true := h l (by simp)
    have hstep : (processLine true false st l).1 =
        { is_downloading_audio :=
            classifyDest true false (st.download_count + 1) l == Phase.audio,
          is_downloading_video :=
            classifyDest true false (st.download_count + 1) l == Phase.video,
          is_downloading_metadata :=
            classifyDest true false (st.download_count + 1) l == Phase.metadata,
          download_count := st.download_count + 1,
          download_sequence := st.download_sequence
            ++ [phaseName (classifyDest true false (st.download_count + 1) l)] } := by
      unfold processLine
      simp only [hl, if_true]
      cases findProgress l.data <;> simp
    have hrec := ih (fun x hx => h x (by simp [hx])) (processLine true false st l).1
    constructor
    · simp only [runFrom]
      rw [hstep] at hrec
      rw [hstep, hrec.1]
      simp [expectedTedSeq, phaseName_classifyDest_ted, List.append_assoc]
    · simp only [runFrom]
      rw [hstep] at hrec
      rw [hstep, hrec.2]
      simp [List.length_cons]
      omega

/-- Claim C3 counterexample: in TED ordinal mode the announced filename does
matter — when the second destination announcement names a `.srt` file, the
extension override classifies it as metadata, not as video as the purely
ordinal rule claims. -/
theorem ted_second_announcement_not_video :
    ((runLines true false
        ["[download] Destination: /tmp/a.mp4",
         "[download] Destination: /tmp/b.srt"]).1).download_sequence =
      ["metadata", "metadata"]
    ∧ ((runLines true false
        ["[download] Destination: /tmp/a.mp4",
         "[download] Destination: /tmp/b.srt"]).1).is_downloading_video = false
    ∧ ((runLines true false
        ["[download] Destination: /tmp/a.mp4",
         "[download] Destination: /tmp/b.srt"]).1).is_downloading_metadata = true := by
  refine ⟨by decide, by decide, by decide⟩

/-- Claim C3 amended: in TED ordinal mode a destination announcement naming a
`.vtt`/`.srt`/`.json`/`.jpg`/`.png` file is classified metadata regardless of
its ordinal; otherwise the ordinal decides — the 2nd announcement is video,
the 3rd audio, and the 1st, 4th and all later ones metadata. -/
theorem ted_ordinal_with_extension_override (lines : List String)
    (h : ∀ l ∈ lines, isDest l = true) :
    ((runLines true false lines).1).download_sequence = expectedTedSeq 0 lines
    ∧ ((runLines true false lines).1).download_count = lines.length := by
  have := runFrom_ted_dest lines h initState
  simpa [runLines, initState] using this

/-- Witness for `C3`'s amended theorem: four announcements with non-metadata
filenames classify as metadata, video, audio, metadata in that order. -/
theorem ted_ordinal_with_extension_override_witness :
    ((runLines true false
        ["[download] Destination: a.bin", "[download] Destination: b.bin",
         "[download] Destination: c.bin", "[download] Destination: d.bin"]).1).download_sequence =
      ["metadata", "video", "audio", "metadata"]
    ∧ ((runLines true false
        ["[download] Destination: a.bin", "[download] Destination: b.bin",
         "[download] Destination: c.bin", "[download] Destination: d.bin"]).1).download_count = 4 := by
  have h := ted_ordinal_with_extension_override
    ["[download] Destination: a.bin", "[download] Destination: b.bin",
     "[download] Destination: c.bin", "[download] Destination: d.bin"] (by decide)
  refine ⟨?_, ?_⟩
  · rw [h.1]; decide
  · rw [h.2]; rfl

/-- Claim C4: a non-destination line (in particular a percentage-progress line)
never changes the classifier state, so the phase is sticky between
destination announcements; on the concrete sequence [`.srt` destination, 10%
progress, `.m4a` destination, 50% progress] of a non-TED, non-audio-only run
the classifier emits a metadata event at 10.0 and then an audio event at
50.0. -/
theorem progress_phase_sticky :
    (∀ isTed audioOnly st line, isDest line = false →
      (processLine isTed audioOnly st line).1 = st)
    ∧ (runLines false false
        ["[download] Destination: /tmp/foo.srt",
         "[download]  10.0% of 3.00MiB",
         "[download] Destination: /tmp/foo.m4a",
         "[download]  50.0% of 3.00MiB"]).2 =
      [⟨Phase.metadata, "10.0"⟩, ⟨Phase.audio, "50.0"⟩] :=
  ⟨processLine_not_dest, by decide⟩

/-- Claim C10: the three phase flags start false; while no destination
announcement has arrived the state stays initial and every progress event
carries the generic phase (the run decomposes around that prefix); and after
any sequence of lines at most one of the three flags is set. -/
theorem phase_flags_invariant :
    (initState.is_downloading_audio = false ∧ initState.is_downloading_video = false
      ∧ initState.is_downloading_metadata = false)
    ∧ (∀ isTed audioOnly pre suf, (∀ l ∈ pre, isDest l = false) →
        (runFrom isTed audioOnly initState pre).1 = initState
        ∧ (∀ ev ∈ (runFrom isTed audioOnly initState pre).2, ev.phase = Phase.generic)
        ∧ (runLines isTed audioOnly (pre ++ suf)).2 =
            (runFrom isTed audioOnly initState pre).2 ++ (runLines isTed audioOnly suf).2)
    ∧ (∀ isTed audioOnly lines, countTrue (runLines isTed audioOnly lines).1 ≤ 1)
    ∧ (runLines false false ["random line", "[download]  30.0% of 1MiB"]).2 =
        [⟨Phase.generic, "30.0"⟩] := by
  refine ⟨⟨rfl, rfl, rfl⟩, ?_, ?_, by decide⟩
  · intro it ao pre suf hpre
    have hnd := runFrom_no_dest it ao pre hpre initState
    refine ⟨hnd.1, hnd.2 rfl rfl rfl, ?_⟩
    have happ := runFrom_append it ao pre suf initState
    simp only [runLines, happ, hnd.1]
  · intro it ao lines
    exact runFrom_countTrue it ao lines initState (by decide)

/-! ### The lyric-transcript builder of `embed_lyrics_in_mp3`

The function reads the subtitle document, replaces `\\h+` markers with
spaces, strips the text and splits it into blocks on runs of two or more
newlines.  A block with fewer than 3 lines is skipped.  Otherwise line 1 is
split on `" --> "` (a count other than two raises, aborting the whole
function), the start time is converted and, on success, a
`"<lyric-timestamp> <joined text>"` line is appended; the end time string is
remembered unconditionally.  At the end, if the remembered end time is a
nonempty string and converts, one bare timestamp line is appended. -/

/-- Python `re.sub(r'\\h+', ' ', content)`: every backslash followed by a run of
`h` becomes one space.  Fuel-bounded scan; the input length is enough fuel
since every step consumes at least one character. -/
def subHGo : Nat → List Char → List Char
  | 0, cs => cs
  | _ + 1, [] => []
  | fuel + 1, c :: rest =>
    if c == '\\' then
      let k := (rest.takeWhile (fun x => x == 'h')).length
      if k == 0 then c :: subHGo fuel rest
      else ' ' :: subHGo fuel (rest.drop k)
    else c :: subHGo fuel rest

/-- The `\h`-marker replacement on a string. -/
def subHPlus (s : String) : String := ⟨subHGo s.data.length s.data⟩

/-- Python `str.strip()` on the ASCII whitespace range. -/
def stripPy (cs : List Char) : List Char :=
  ((cs.dropWhile isPySpace).reverse.dropWhile isPySpace).reverse

/-- Python `re.split(r'\n\n+', text)`: cut at every maximal run of two or more
newlines.  Fuel-bounded scan with an accumulator for the current chunk. -/
def splitBlocksGo : Nat → List Char → List Char → List (List Char)
  | 0, acc, cs => [acc.reverse ++ cs]
  | _ + 1, acc, [] => [acc.reverse]
  | fuel + 1, acc, c :: rest =>
    if c == '\n' then
      let r := (rest.takeWhile (fun x => x == '\n')).length
      if 1 ≤ r then acc.reverse :: splitBlocksGo fuel [] (rest.drop r)
      else splitBlocksGo fuel ('\n' :: acc) rest
    else splitBlocksGo fuel (c :: acc) rest

/-- Split the document into blocks. -/
def splitBlocks (cs : List Char) : List (List Char) := splitBlocksGo cs.length [] cs

/-- Python `str.split(sep)` for a non-empty separator: leftmost,
non-overlapping, keeping empty parts.  Fuel-bounded scan. -/
def splitSeqGo (sep : List Char) : Nat → List Char → List Char → List (List Char)
  | 0, acc, cs => [acc.reverse ++ cs]
  | _ + 1, acc, [] => [acc.reverse]
  | fuel + 1, acc, c :: rest =>
    if sep.isPrefixOf (c :: rest) then
      acc.reverse :: splitSeqGo sep fuel [] ((c :: rest).drop sep.length)
    else splitSeqGo sep fuel (c :: acc) rest

/-- Python `timestamp_line.split(' --> ')`. -/
def splitArrow (cs : List Char) : List (List Char) :=
  splitSeqGo " --> ".data cs.length [] cs

/-- Python `' '.join(text_lines)`. -/
def joinSpace (ls : List (List Char)) : String :=
  String.intercalate " " (ls.map (fun l => ⟨l⟩))

/-- The block loop of `embed_lyrics_in_mp3`: carries the accumulated lyric
lines and the most recent end-time string; `none` models the `ValueError`
raised when a timestamp line does not split into exactly two parts (the
source catches it at the function boundary and fails the whole call). -/
def embedLoop : List (List Char) → List String → Option String →
    Option (List String × Option String)
  | [], acc, lastEnd => some (acc, lastEnd)
  | b :: bs, acc, lastEnd =>
    match b.splitOn '\n' with
    | _ :: ts :: t1 :: trest =>
      match splitArrow ts with
      | [st, en] =>
        let acc' := match convert_srt_timestamp ⟨st⟩ with
          | some lrc => acc ++ [lrc ++ " " ++ joinSpace (t1 :: trest)]
          | none => acc
        embedLoop bs acc' (some ⟨en⟩)
      | _ => none
    | _ => embedLoop bs acc lastEnd

/-- The trailing bare-timestamp line the function appends after the loop:
present exactly when the remembered end time is a nonempty string (Python
truthiness of `last_end_time`) that converts to lyric form. -/
def trailerOf : Option String → List String
  | none => []
  | some en =>
    if en.isEmpty then []
    else
      match convert_srt_timestamp en with
      | some f => [f]
      | none => []

/-- The blocks the source derives from the document text. -/
def blocksOf (content : String) : List (List Char) :=
  splitBlocks (stripPy (subHPlus content).data)

/-- The full transcript construction of `embed_lyrics_in_mp3` (`none` models
the uncaught-in-loop `ValueError` path). -/
def buildLrcLines (content : String) : Option (List String) :=
  match embedLoop (blocksOf content) [] none with
  | none => none
  | some (acc, lastEnd) => some (acc ++ trailerOf lastEnd)

/-- Claim C7 counterexample: a document whose only block has an unparsable start
time but a parsable end time produces zero lyric lines and still gets the
trailing bare-timestamp line, so the transcript is not empty — against the
claim that the trailing line appears only when a lyric line was produced. -/
theorem transcript_trailing_without_lyrics :
    embedLoop (blocksOf "1\nbad --> 00:00:01,000\nText") [] none =
      some ([], some "00:00:01,000")
    ∧ buildLrcLines "1\nbad --> 00:00:01,000\nText" = some ["[00:01.00]"] := by
  constructor <;> decide

/-- Claim C7 amended: the transcript is the produced lyric lines followed by the
trailing bare line, and the trailing line is appended exactly when the last
processed block's end-time string is nonempty and converts to lyric form —
independently of whether any lyric line was produced; with a convertible
block both parts appear. -/
theorem transcript_decomposition :
    (∀ content body lastEnd,
      embedLoop (blocksOf content) [] none = some (body, lastEnd) →
      buildLrcLines content = some (body ++ trailerOf lastEnd))
    ∧ buildLrcLines "1\n00:00:01,000 --> 00:00:02,500\nHi" =
        some ["[00:01.00] Hi", "[00:02.50]"] := by
  refine ⟨?_, by decide⟩
  intro content body lastEnd h
  simp [buildLrcLines, h]

/-! ### The tag-embedding step of `embed_lyrics_in_mp3`

The source runs `audio.version = (2, 3, 0)`, `audio.delall("f")`,
`audio.add(USLT(encoding=3, lang='eng', text=...))`,
`audio.save(mp3_file, v2_version=3)` on the mutagen `ID3` container. -/

/-- A synchronized/unsynchronized lyrics frame as the source constructs it. -/
structure USLTFrame where
  encoding : Nat
  lang : String
  text : String
deriving DecidableEq

/-- Modelled from the spec: the tag container written into the audio
artifact (the mutagen `ID3` dictionary is outside this repository).  It is
a sub-version plus an ordered collection of frames keyed by frame hash key;
`add` fully replaces the entry of the same kind instead of appending, and
writing normalizes the container to the legacy ID3v2.3 sub-version. -/
structure ID3Tag where
  version : Nat × Nat × Nat
  frames : List (String × USLTFrame)
deriving DecidableEq

/-- The hash key of a lyrics frame: frame id, empty description, language. -/
def hashKey (f : USLTFrame) : String := "USLT:" ++ ":" ++ f.lang

/-- Dictionary update at a key: replace in place if present, else append. -/
def setEntry (k : String) (fr : USLTFrame) (l : List (String × USLTFrame)) :
    List (String × USLTFrame) :=
  if l.any (fun kv => kv.1 == k) then
    l.map (fun kv => if kv.1 == k then (k, fr) else kv)
  else l ++ [(k, fr)]

/-- Mutagen `ID3.delall(fid)`: delete the exact key if present, else every key with
prefix `fid ++ ":"`. -/
def delallFrames (fid : String) (l : List (String × USLTFrame)) :
    List (String × USLTFrame) :=
  if l.any (fun kv => kv.1 == fid) then l.filter (fun kv => !(kv.1 == fid))
  else l.filter (fun kv => !((fid ++ ":").isPrefixOf kv.1))

/-- The container transform performed by `embed_lyrics_in_mp3`: set the
sub-version to (2, 3, 0), `delall("f")`, `add` the English lyrics frame,
save with `v2_version=3`. -/
def embed_tag_transform (text : String) (t : ID3Tag) : ID3Tag :=
  let fr : USLTFrame := ⟨3, "eng", text⟩
  ⟨(2, 3, 0), setEntry (hashKey fr) fr (delallFrames "f" t.frames)⟩

/-- The stored synchronized-lyrics entries (key `USLT::eng`). -/
def lyricEntries (t : ID3Tag) : List (String × USLTFrame) :=
  t.frames.filter (fun kv => kv.1 == "USLT::eng")

lemma replaceEntry_fst (k : String) (fr : USLTFrame) (kv : String × USLTFrame) :
    (if kv.1 == k then (k, fr) else kv).1 = kv.1 := by
  split
  · next h => simp [beq_iff_eq] at h; simp [h]
  · rfl

lemma keys_map_replace (k : String) (fr : USLTFrame) (l : List (String × USLTFrame)) :
    (l.map (fun kv => if kv.1 == k then (k, fr) else kv)).map Prod.fst = l.map Prod.fst := by
  induction l with
  | nil => rfl
  | cons kv tl ih =>
    simp only [List.map_cons]
    rw [replaceEntry_fst, ih]

lemma keys_delall_sublist (fid : String) (l : List (String × USLTFrame)) :
    ((delallFrames fid l).map Prod.fst).Sublist (l.map Prod.fst) := by
  unfold delallFrames
  split <;> exact (List.filter_sublist _).map _

lemma not_mem_keys_of_any_false {k : String} {l : List (String × USLTFrame)}
    (h : l.any (fun kv => kv.1 == k) = false) : k ∉ l.map Prod.fst := by
  intro hmem
  obtain ⟨kv, hkv, he⟩ := List.mem_map.mp hmem
  exact List.any_eq_false.mp h kv hkv (by rw [he]; exact beq_self_eq_true k)

lemma keys_setEntry_nodup {k : String} {fr : USLTFrame} {l : List (String × USLTFrame)}
    (hl : (l.map Prod.fst).Nodup) : ((setEntry k fr l).map Prod.fst).Nodup := by
  unfold setEntry
  split_ifs with h
  · rw [keys_map_replace]; exact hl
  · have hf : l.any (fun kv => kv.1 == k) = false := Bool.eq_false_iff.mpr h
    simp only [List.map_append, List.map_cons, List.map_nil]
    rw [List.nodup_append]
    refine ⟨hl, List.nodup_singleton _, ?_⟩
    intro a ha hb
    have hb' : a = k := by simpa using hb
    subst hb'
    exact not_mem_keys_of_any_false hf ha

lemma filter_key_map_replace_nil {k : String} {fr : USLTFrame} :
    ∀ l : List (String × USLTFrame), k ∉ l.map Prod.fst →
      (l.map (fun kv => if kv.1 == k then (k, fr) else kv)).filter
        (fun kv => kv.1 == k) = [] := by
  intro l
  induction l with
  | nil => intro _; rfl
  | cons kv tl ih =>
    intro h
    have hk : ¬(kv.1 = k) := fun e =>
      h (by simp only [List.map_cons, ← e]; exact List.mem_cons_self _ _)
    have hb : (kv.1 == k) = false := by simpa using hk
    simp only [List.map_cons, hb, Bool.false_eq_true, if_false, List.filter_cons]
    have h' : k ∉ tl.map Prod.fst := fun hm =>
      h (by simp only [List.map_cons]; exact List.mem_cons_of_mem _ hm)
    simpa [hb] using ih h'

lemma filter_key_of_no_key {k : String} {l : List (String × USLTFrame)}
    (h : l.any (fun kv => kv.1 == k) = false) :
    l.filter (fun kv => kv.1 == k) = [] := by
  rw [List.filter_eq_nil_iff]
  intro a ha
  exact List.any_eq_false.mp h a ha

lemma filter_key_map_replace {k : String} {fr : USLTFrame} :
    ∀ l : List (String × USLTFrame), (l.map Prod.fst).Nodup →
      l.any (fun kv => kv.1 == k) = true →
      (l.map (fun kv => if kv.1 == k then (k, fr) else kv)).filter
        (fun kv => kv.1 == k) = [(k, fr)] := by
  intro l
  induction l with
  | nil => intro _ h; simp at h
  | cons kv tl ih =>
    intro hl hany
    rw [List.map_cons] at hl
    have hl' := List.nodup_cons.mp hl
    by_cases hk : kv.1 = k
    · have hb : (kv.1 == k) = true := by simp [hk]
      have hnot : k ∉ tl.map Prod.fst := by rw [← hk]; exact hl'.1
      simp only [List.map_cons, hb, if_true, List.filter_cons]
      rw [filter_key_map_replace_nil tl hnot]
      simp
    · have hb : (kv.1 == k) = false := by simp [hk]
      have hany' : tl.any (fun kv => kv.1 == k) = true := by
        rw [List.any_cons, hb] at hany
        simpa using hany
      simp only [List.map_cons, hb, Bool.false_eq_true, if_false, List.filter_cons]
      simpa [hb] using ih hl'.2 hany'

lemma setEntry_filter_key {k : String} {fr : USLTFrame} {l : List (String × USLTFrame)}
    (hl : (l.map Prod.fst).Nodup) :
    (setEntry k fr l).filter (fun kv => kv.1 == k) = [(k, fr)] := by
  unfold setEntry
  split_ifs with h
  · exact filter_key_map_replace l hl h
  · rw [List.filter_append, filter_key_of_no_key (Bool.eq_false_iff.mpr h)]
    simp

/-- Claim C9: embedding the same transcript twice leaves the stored
synchronized-lyrics metadata of the second call identical to the first: in
both, the container holds exactly one `USLT::eng` entry — encoding 3,
language `eng`, the transcript text — the previous entry of the same kind
having been fully replaced, and the container sub-version is (2, 3, 0). -/
theorem embed_lyrics_idempotent (text : String) (t : ID3Tag)
    (ht : (t.frames.map Prod.fst).Nodup) :
    lyricEntries (embed_tag_transform text (embed_tag_transform text t)) =
      lyricEntries (embed_tag_transform text t)
    ∧ lyricEntries (embed_tag_transform text t) = [("USLT::eng", ⟨3, "eng", text⟩)]
    ∧ (embed_tag_transform text t).version = (2, 3, 0)
    ∧ (embed_tag_transform text (embed_tag_transform text t)).version = (2, 3, 0) := by
  have hkey : hashKey ⟨3, "eng", text⟩ = "USLT::eng" := rfl
  have h1 : ((delallFrames "f" t.frames).map Prod.fst).Nodup :=
    ht.sublist (keys_delall_sublist "f" t.frames)
  have hfr : (embed_tag_transform text t).frames =
      setEntry "USLT::eng" ⟨3, "eng", text⟩ (delallFrames "f" t.frames) := by
    simp [embed_tag_transform, hkey]
  have hfront : lyricEntries (embed_tag_transform text t) =
      [("USLT::eng", ⟨3, "eng", text⟩)] := by
    rw [lyricEntries, hfr]
    exact setEntry_filter_key h1
  have h2 : ((embed_tag_transform text t).frames.map Prod.fst).Nodup := by
    rw [hfr]
    exact keys_setEntry_nodup h1
  have h3 : ((delallFrames "f" (embed_tag_transform text t).frames).map Prod.fst).Nodup :=
    h2.sublist (keys_delall_sublist "f" _)
  have hback : lyricEntries (embed_tag_transform text (embed_tag_transform text t)) =
      [("USLT::eng", ⟨3, "eng", text⟩)] := by
    have hfr2 : (embed_tag_transform text (embed_tag_transform text t)).frames =
        setEntry "USLT::eng" ⟨3, "eng", text⟩
          (delallFrames "f" (embed_tag_transform text t).frames) := by
      simp [embed_tag_transform, hkey]
    rw [lyricEntries, hfr2]
    exact setEntry_filter_key h3
  exact ⟨hback.trans hfront.symm, hfront, rfl, rfl⟩

/-- A concrete prior container: one unrelated frame and one stale English
lyrics entry, with distinct keys. -/
def sampleTag : ID3Tag :=
  ⟨(2, 4, 0), [("TXXX::x", ⟨0, "x", "y"⟩), ("USLT::eng", ⟨3, "eng", "old"⟩)]⟩

/-- Witness for `C9` at a concrete container and transcript. -/
theorem embed_lyrics_idempotent_witness :
    lyricEntries (embed_tag_transform "hello" (embed_tag_transform "hello" sampleTag)) =
      lyricEntries (embed_tag_transform "hello" sampleTag)
    ∧ lyricEntries (embed_tag_transform "hello" sampleTag) = [("USLT::eng", ⟨3, "eng", "hello"⟩)]
    ∧ (embed_tag_transform "hello" sampleTag).version = (2, 3, 0)
    ∧ (embed_tag_transform "hello" (embed_tag_transform "hello" sampleTag)).version = (2, 3, 0) :=
  embed_lyrics_idempotent "hello" sampleTag (by decide)

end Simple
